/-
Verification of the EVA (Epistemically Verified AI) pipeline.

This file gives a shallow embedding of the two source variants of the
pipeline and proves or refutes the stated properties of:
  - the verification aggregator (src/src/eva/reliability.py, aggregate_verification)
  - the reliability scorers (src/eva/reliability.py logistic form,
    src/src/eva/reliability.py multiplicative form)
  - the adaptive sampling policies (src/eva/utils.py ceil rule,
    src/src/eva/utils.py interpolation rule)
  - the stability estimators (src/eva/stability.py, src/src/eva/stability.py)
  - the difficulty estimators (src/eva/difficulty.py perturbation strategy,
    src/src/eva/difficulty.py repetition strategy)
  - the orchestrator (src/eva/core.py, EVA.__init__ and EVA.run)

Python floats are modelled as rationals (exact arithmetic) except where a
transcendental function (exp, log, tanh, sqrt) appears in the source, in
which case real numbers are used.  A Python function that can raise is
modelled as returning an Option; division in total contexts mirrors the
source expression shape.  Nondeterministic generation (repeated calls of
llm_fn on the same prompt) is modelled by indexing calls with a counter.
-/

import Mathlib

/-- Clamp a rational into [0, 1]; models `np.clip(x, 0.0, 1.0)` and
`max(0.0, min(1.0, x))` from the sources. -/
def clamp01 (x : ℚ) : ℚ := max 0 (min 1 x)

/-- `aggregate_verification` from src/src/eva/reliability.py.
Empty score list returns 1.0 (epistemic neutrality).  Otherwise the
weighted mean is divided by `sum(verifier_weights)`; when that sum is
zero Python raises ZeroDivisionError, modelled by `none`.  The result is
`0.5 * weighted_mean + 0.5 * min(verifier_scores)`. -/
def aggregate_verification : List ℚ → List ℚ → Option ℚ
  | [], _ => some 1
  | s :: ss, weights =>
      if weights.sum = 0 then none
      else
        some ((1/2) * (((s :: ss).zip weights).map (fun p => p.1 * p.2)).sum / weights.sum
              + (1/2) * ss.foldl min s)

/-- The value computed in the nonempty branch of `aggregate_verification`:
`0.5 * weighted_mean + 0.5 * hard_min`, named so theorems can refer to it. -/
def aggExpr (s : ℚ) (ss weights : List ℚ) : ℚ :=
  (1/2) * (((s :: ss).zip weights).map (fun p => p.1 * p.2)).sum / weights.sum
    + (1/2) * ss.foldl min s

/-- `adaptive_k` from src/eva/utils.py: `k = k_min + ceil(lam*(1-S) + mu*D)`,
then clamped to `[k_min, k_max]` by two if-tests. -/
def adaptive_k (S D : ℚ) (k_min k_max : ℤ) (lam mu : ℚ) : ℤ :=
  let k : ℤ := k_min + ⌈lam * (1 - S) + mu * D⌉
  if k < k_min then k_min
  else if k > k_max then k_max
  else k

/-- Python `int()` truncation toward zero on an exact rational. -/
def pyInt (x : ℚ) : ℤ := if 0 ≤ x then ⌊x⌋ else ⌈x⌉

/-- `adaptive_k` from src/src/eva/utils.py: `u = (1-S) + D`, `alpha = u/2`,
`k = int(k_min + alpha*(k_max - k_min))`, then `max(k_min, min(k, k_max))`. -/
def adaptive_kB (S D : ℚ) (k_min k_max : ℤ) : ℤ :=
  let u : ℚ := (1 - S) + D
  let a : ℚ := u / 2
  let k : ℤ := pyInt ((k_min : ℚ) + a * ((k_max : ℚ) - (k_min : ℚ)))
  max k_min (min k k_max)

/-- Repetition-based `DifficultyEstimator.compute` from
src/src/eva/difficulty.py: draw `n` outputs for the prompt (call `i`
returns `llm i`), count distinct strings, return `min(1.0, unique / n)`. -/
def difficultyRep (llm : ℕ → String) (n : ℕ) : ℚ :=
  let outputs := (List.range n).map llm
  let unique := outputs.dedup.length
  min 1 ((unique : ℚ) / (n : ℚ))

/-- Sum of `f x y` over all ordered positions `i < j` of the list: the
strictly-upper-triangular accumulation loop
`for i in range(n): for j in range(i+1, n): score += sim_matrix[i, j]`
shared by src/eva/stability.py and src/eva/difficulty.py. -/
def pairSum {α β : Type} [AddCommMonoid β] (f : α → α → β) : List α → β
  | [] => 0
  | x :: xs => (xs.map (f x)).sum + pairSum f xs

/-- Number of strictly-upper-triangular entries, the loop's `count`. -/
def numPairs {α : Type} (l : List α) : ℕ := l.length * (l.length - 1) / 2

/-- Dot product of two embedding vectors.  With
`normalize_embeddings=True` (src/eva/stability.py, src/eva/difficulty.py)
the cosine similarity of two embeddings is their dot product. -/
def dotprod (xs ys : List ℚ) : ℚ := (List.zipWith (· * ·) xs ys).sum

/-- `StabilityEstimator.compute` from src/eva/stability.py: fewer than 2
outputs returns 0.0; otherwise the mean of the strictly-upper-triangular
pairwise similarities.  The external sentence-transformer is modelled by
an arbitrary embedding function `emb`; normalized-embedding cosine
similarity is the dot product of the embeddings. -/
def stabilityCompute (emb : String → List ℚ) (outputs : List String) : ℚ :=
  if outputs.length < 2 then 0
  else pairSum (fun a b => dotprod (emb a) (emb b)) outputs / (numPairs outputs : ℚ)

/-- The body of `DifficultyEstimator.compute` from src/eva/difficulty.py
after the outputs have been generated: mean upper-triangular similarity
(`score / count if count > 0 else 0.0`), then `1 - mean`, clipped to
[0, 1]. -/
def difficultyFromOutputs (emb : String → List ℚ) (outputs : List String) : ℚ :=
  let mean := if 0 < numPairs outputs
              then pairSum (fun a b => dotprod (emb a) (emb b)) outputs / (numPairs outputs : ℚ)
              else 0
  clamp01 (1 - mean)

/-- `DifficultyEstimator._perturb_prompt` from src/eva/difficulty.py:
the fixed set of five semantically-equivalent rephrasings. -/
def perturb_prompt (prompt : String) : List String :=
  [prompt,
   "Please answer the following: " ++ prompt,
   "In simple terms, " ++ prompt,
   "From a theoretical perspective, " ++ prompt,
   "Explain concisely: " ++ prompt]

/-- Perturbation-based `DifficultyEstimator.compute` over an explicit
rephrasing list: generate one output per rephrasing (generation call `j`
uses `gen j`), then apply the pairwise-mean machinery.  With the source's
`_perturb_prompt` the list has five entries; the spec also considers
strategies producing a single rephrasing. -/
def difficultyFromPrompts (gen : ℕ → String → String) (emb : String → List ℚ)
    (prompts : List String) : ℚ :=
  difficultyFromOutputs emb (prompts.mapIdx (fun j p => gen j p))

/-- Sigmoid from src/eva/reliability.py: `1.0 / (1.0 + math.exp(-x))`. -/
noncomputable def sigmoid (x : ℝ) : ℝ := 1 / (1 + Real.exp (-x))

/-- `compute_reliability` from src/eva/reliability.py (logistic form):
`R = sigmoid(alpha*S + beta*V - gamma*D)`. -/
noncomputable def compute_reliability (stability verification difficulty : ℝ)
    (alpha beta gamma : ℝ) : ℝ :=
  sigmoid (alpha * stability + beta * verification - gamma * difficulty)

/-- `compute_reliability` from src/src/eva/reliability.py (multiplicative
form): `max(0.0, min(1.0, S * V * (1.0 - D)))`. -/
def compute_reliabilityB (S V D : ℚ) : ℚ := max 0 (min 1 (S * V * (1 - D)))

/-- Dot product over real embedding vectors (variant-B stability does not
normalize its embeddings, so cosine similarity needs true norms). -/
def dotprodR (xs ys : List ℝ) : ℝ := (List.zipWith (· * ·) xs ys).sum

/-- Cosine similarity of the embeddings of two texts, as
`sklearn.metrics.pairwise.cosine_similarity` computes it. -/
noncomputable def cosSim (emb : String → List ℝ) (a b : String) : ℝ :=
  dotprodR (emb a) (emb b)
    / (Real.sqrt (dotprodR (emb a) (emb a)) * Real.sqrt (dotprodR (emb b) (emb b)))

/-- `np.clip(p, 1e-6, 1.0)` from src/src/eva/stability.py. -/
noncomputable def clipProb (p : ℝ) : ℝ := max (1/1000000) (min 1 p)

/-- One `p * log p` entropy term over a clipped similarity. -/
noncomputable def entTerm (p : ℝ) : ℝ := clipProb p * Real.log (clipProb p)

/-- `StabilityEstimator.compute` from src/src/eva/stability.py: fewer
than 2 outputs returns 1.0; otherwise the mean upper-triangular cosine
similarity is damped by `(1 - tanh(entropy))` where
`entropy = -mean(p * log p)` over the clipped similarities, and the
result is floored at 0. -/
noncomputable def stabilityComputeB (emb : String → List ℝ) (outputs : List String) : ℝ :=
  if outputs.length < 2 then 1
  else
    let mean_sim := pairSum (fun a b => cosSim emb a b) outputs / (numPairs outputs : ℝ)
    let entropy := -(pairSum (fun a b => entTerm (cosSim emb a b)) outputs / (numPairs outputs : ℝ))
    max 0 (mean_sim * (1 - Real.tanh entropy))

/-- Configuration stored by `EVA.__init__` (src/eva/core.py).  Verifiers
are modelled by their `verify` predicates (a `KeywordVerifier` is one
such predicate); `llm_fn` is passed separately to `run`. -/
structure EVAConfig where
  verifiers : List (String → Bool)
  threshold : ℚ
  alpha : ℚ
  beta : ℚ
  gamma : ℚ
  k_min : ℤ
  k_max : ℤ

/-- `EVA.__init__` from src/eva/core.py: stores the arguments verbatim;
`verifiers or [NoOpVerifier()]` replaces an empty list by the no-op
verifier (which accepts every output).  No validation is performed. -/
def EVA.init (verifiers : List (String → Bool)) (threshold alpha beta gamma : ℚ)
    (k_min k_max : ℤ) : EVAConfig :=
  { verifiers := if verifiers.isEmpty then [fun _ => true] else verifiers
    threshold := threshold
    alpha := alpha
    beta := beta
    gamma := gamma
    k_min := k_min
    k_max := k_max }

/-- `EVA._verification_score` from src/eva/core.py: for each output, the
fraction of verifiers accepting it; averaged over the outputs. -/
def verification_score (verifiers : List (String → Bool)) (outputs : List String) : ℚ :=
  (outputs.map (fun o => ((verifiers.filter (fun v => v o)).length : ℚ) / (verifiers.length : ℚ))).sum
    / (outputs.length : ℚ)

/-- `EvaluationResult`: the record `EVA.run` returns (src/eva/core.py). -/
structure EVAResult where
  accepted : Bool
  reliability : ℝ
  stability : ℚ
  verification : ℚ
  difficulty : ℚ
  samples_used : ℤ
  outputs : List String

/-- Number of samples chosen inside `EVA.run`: `adaptive_k` applied to
the stability of the initial `k_min` samples and the difficulty of the
prompt.  Generation calls are indexed: initial samples are calls
`0..k_min-1`, the five difficulty-estimation calls follow. -/
def runK (cfg : EVAConfig) (llm : ℕ → String → String) (emb : String → List ℚ)
    (prompt : String) : ℤ :=
  let outputs0 := (List.range cfg.k_min.toNat).map (fun i => llm i prompt)
  let S0 := stabilityCompute emb outputs0
  let D := difficultyFromPrompts (fun j p => llm (cfg.k_min.toNat + j) p) emb
             (perturb_prompt prompt)
  adaptive_k S0 D cfg.k_min cfg.k_max 4 4

/-- The output list `EVA.run` ends with: the initial `k_min` samples,
extended by `k - k_min` further samples when `k > k_min`. -/
def runOutputs (cfg : EVAConfig) (llm : ℕ → String → String) (emb : String → List ℚ)
    (prompt : String) : List String :=
  let outputs0 := (List.range cfg.k_min.toNat).map (fun i => llm i prompt)
  let k := runK cfg llm emb prompt
  if k > cfg.k_min then
    outputs0 ++ (List.range (k - cfg.k_min).toNat).map
      (fun i => llm (cfg.k_min.toNat + 5 + i) prompt)
  else outputs0

/-- `EVA.run` from src/eva/core.py: initial sampling, stability,
difficulty, adaptive resampling, verification, logistic reliability,
threshold decision, packaged into one `EVAResult`. -/
noncomputable def EVA.run (cfg : EVAConfig) (llm : ℕ → String → String)
    (emb : String → List ℚ) (prompt : String) : EVAResult :=
  let k := runK cfg llm emb prompt
  let outputs := runOutputs cfg llm emb prompt
  let D := difficultyFromPrompts (fun j p => llm (cfg.k_min.toNat + j) p) emb
             (perturb_prompt prompt)
  let S := stabilityCompute emb outputs
  let V := verification_score cfg.verifiers outputs
  let R := compute_reliability (S : ℝ) (V : ℝ) (D : ℝ) (cfg.alpha : ℝ) (cfg.beta : ℝ) (cfg.gamma : ℝ)
  { accepted := decide ((cfg.threshold : ℝ) ≤ R)
    reliability := R
    stability := S
    verification := V
    difficulty := D
    samples_used := k
    outputs := outputs }

theorem clamp01_le_clamp01 {a b : ℚ} (h : a ≤ b) : clamp01 a ≤ clamp01 b := by
  unfold clamp01
  exact max_le_max le_rfl (min_le_min le_rfl h)

theorem clamp01_eq_zero_of_nonpos {x : ℚ} (h : x ≤ 0) : clamp01 x = 0 := by
  unfold clamp01
  exact max_eq_left (le_trans (min_le_right 1 x) h)

theorem compute_reliabilityB_eq_clamp (S V D : ℚ) :
    compute_reliabilityB S V D = clamp01 (S * V * (1 - D)) := rfl

theorem sigmoid_le_sigmoid {x y : ℝ} (h : x ≤ y) : sigmoid x ≤ sigmoid y := by
  unfold sigmoid
  have h2 : (0:ℝ) < 1 + Real.exp (-y) := by positivity
  apply one_div_le_one_div_of_le h2
  have h3 := Real.exp_le_exp.mpr (neg_le_neg h)
  linarith

/-- C1: For every fixed pair of the other two inputs, compute_reliability
is monotonically nondecreasing in the stability S, monotonically
nondecreasing in the verification V, and monotonically nonincreasing in
the difficulty D, for both the logistic formula (with nonnegative alpha,
beta, gamma) and the multiplicative formula (with V and D in their
declared ranges). -/
theorem claim_C1_reliability_monotone :
    (∀ a b g S1 S2 V D : ℝ, 0 ≤ a → S1 ≤ S2 →
       compute_reliability S1 V D a b g ≤ compute_reliability S2 V D a b g) ∧
    (∀ a b g S V1 V2 D : ℝ, 0 ≤ b → V1 ≤ V2 →
       compute_reliability S V1 D a b g ≤ compute_reliability S V2 D a b g) ∧
    (∀ a b g S V D1 D2 : ℝ, 0 ≤ g → D1 ≤ D2 →
       compute_reliability S V D2 a b g ≤ compute_reliability S V D1 a b g) ∧
    (∀ S1 S2 V D : ℚ, 0 ≤ V → D ≤ 1 → S1 ≤ S2 →
       compute_reliabilityB S1 V D ≤ compute_reliabilityB S2 V D) ∧
    (∀ S V1 V2 D : ℚ, 0 ≤ V1 → V1 ≤ V2 → D ≤ 1 →
       compute_reliabilityB S V1 D ≤ compute_reliabilityB S V2 D) ∧
    (∀ S V D1 D2 : ℚ, D1 ≤ D2 → D2 ≤ 1 →
       compute_reliabilityB S V D2 ≤ compute_reliabilityB S V D1) := by
  refine ⟨?_, ?_, ?_, ?_, ?_, ?_⟩
  · intro a b g S1 S2 V D ha hS
    apply sigmoid_le_sigmoid
    have : a * S1 ≤ a * S2 := mul_le_mul_of_nonneg_left hS ha
    linarith
  · intro a b g S V1 V2 D hb hV
    apply sigmoid_le_sigmoid
    have : b * V1 ≤ b * V2 := mul_le_mul_of_nonneg_left hV hb
    linarith
  · intro a b g S V D1 D2 hg hD
    apply sigmoid_le_sigmoid
    have : g * D1 ≤ g * D2 := mul_le_mul_of_nonneg_left hD hg
    linarith
  · intro S1 S2 V D hV hD hS
    rw [compute_reliabilityB_eq_clamp, compute_reliabilityB_eq_clamp]
    apply clamp01_le_clamp01
    have hc : 0 ≤ V * (1 - D) := mul_nonneg hV (by linarith)
    calc S1 * V * (1 - D) = S1 * (V * (1 - D)) := by ring
      _ ≤ S2 * (V * (1 - D)) := mul_le_mul_of_nonneg_right hS hc
      _ = S2 * V * (1 - D) := by ring
  · intro S V1 V2 D hV1 hV hD
    rw [compute_reliabilityB_eq_clamp, compute_reliabilityB_eq_clamp]
    rcases le_or_lt 0 (S * (1 - D)) with hc | hc
    · apply clamp01_le_clamp01
      calc S * V1 * (1 - D) = S * (1 - D) * V1 := by ring
        _ ≤ S * (1 - D) * V2 := mul_le_mul_of_nonneg_left hV hc
        _ = S * V2 * (1 - D) := by ring
    · have h1 : S * V1 * (1 - D) ≤ 0 := by nlinarith
      have h2 : S * V2 * (1 - D) ≤ 0 := by nlinarith
      rw [clamp01_eq_zero_of_nonpos h1, clamp01_eq_zero_of_nonpos h2]
  · intro S V D1 D2 hD hD2
    rw [compute_reliabilityB_eq_clamp, compute_reliabilityB_eq_clamp]
    rcases le_or_lt 0 (S * V) with hc | hc
    · apply clamp01_le_clamp01
      exact mul_le_mul_of_nonneg_left (by linarith) hc
    · have h1 : S * V * (1 - D2) ≤ 0 :=
        mul_nonpos_of_nonpos_of_nonneg (le_of_lt hc) (by linarith)
      have h2 : S * V * (1 - D1) ≤ 0 :=
        mul_nonpos_of_nonpos_of_nonneg (le_of_lt hc) (by linarith)
      rw [clamp01_eq_zero_of_nonpos h1, clamp01_eq_zero_of_nonpos h2]

/-- Witness for C1: each monotonicity conjunct instantiated at a concrete
point with the hypotheses discharged numerically. -/
theorem claim_C1_witness :
    compute_reliability 0 0 0 1 1 1 ≤ compute_reliability 1 0 0 1 1 1 ∧
    compute_reliability 0 0 0 1 1 1 ≤ compute_reliability 0 1 0 1 1 1 ∧
    compute_reliability 0 0 1 1 1 1 ≤ compute_reliability 0 0 0 1 1 1 ∧
    compute_reliabilityB 0 (1/2) (1/2) ≤ compute_reliabilityB 1 (1/2) (1/2) ∧
    compute_reliabilityB (1/2) 0 (1/2) ≤ compute_reliabilityB (1/2) 1 (1/2) ∧
    compute_reliabilityB (1/2) (1/2) 1 ≤ compute_reliabilityB (1/2) (1/2) 0 :=
  ⟨claim_C1_reliability_monotone.1 1 1 1 0 1 0 0 (by norm_num) (by norm_num),
   claim_C1_reliability_monotone.2.1 1 1 1 0 0 1 0 (by norm_num) (by norm_num),
   claim_C1_reliability_monotone.2.2.1 1 1 1 0 0 0 1 (by norm_num) (by norm_num),
   claim_C1_reliability_monotone.2.2.2.1 0 1 (1/2) (1/2) (by norm_num) (by norm_num) (by norm_num),
   claim_C1_reliability_monotone.2.2.2.2.1 (1/2) 0 1 (1/2) (by norm_num) (by norm_num) (by norm_num),
   claim_C1_reliability_monotone.2.2.2.2.2 (1/2) (1/2) 0 1 (by norm_num) (by norm_num)⟩

theorem adaptive_k_mem {S D lam mu : ℚ} {k_min k_max : ℤ} (h : k_min ≤ k_max) :
    k_min ≤ adaptive_k S D k_min k_max lam mu ∧ adaptive_k S D k_min k_max lam mu ≤ k_max := by
  simp only [adaptive_k]
  generalize ⌈lam * (1 - S) + mu * D⌉ = c
  split_ifs with h1 h2 <;> omega

theorem adaptive_kB_mem {S D : ℚ} {k_min k_max : ℤ} (h : k_min ≤ k_max) :
    k_min ≤ adaptive_kB S D k_min k_max ∧ adaptive_kB S D k_min k_max ≤ k_max := by
  simp only [adaptive_kB]
  exact ⟨le_max_left _ _, max_le h (min_le_right _ _)⟩

theorem pyInt_intCast (n : ℤ) : pyInt (n : ℚ) = n := by
  unfold pyInt
  split_ifs <;> simp

theorem adaptive_k_top {lam mu : ℚ} {k_min k_max : ℤ} (h : k_min ≤ k_max) :
    adaptive_k 1 0 k_min k_max lam mu = k_min := by
  simp only [adaptive_k]
  norm_num
  omega

theorem adaptive_kB_top (k_min k_max : ℤ) : adaptive_kB 1 0 k_min k_max = k_min := by
  simp only [adaptive_kB]
  norm_num [pyInt_intCast]

theorem adaptive_kB_bot {k_min k_max : ℤ} (h : k_min ≤ k_max) :
    adaptive_kB 0 1 k_min k_max = k_max := by
  simp only [adaptive_kB]
  have h1 : (k_min : ℚ) + ((1 - 0) + 1) / 2 * ((k_max : ℚ) - (k_min : ℚ)) = (k_max : ℚ) := by
    ring
  rw [h1, pyInt_intCast]
  omega

theorem adaptive_k_bot_clamped {k_min k_max : ℤ} (h : k_min ≤ k_max)
    (h2 : k_max ≤ k_min + 12) : adaptive_k (-1) 1 k_min k_max 4 4 = k_max := by
  simp only [adaptive_k]
  norm_num
  omega

/-- C7 counterexample: the ceil-rule `adaptive_k` of src/eva/utils.py at
minimal stability S = -1 and maximal difficulty D = 1 with default
sensitivities lam = mu = 4 returns k_min + 12, which is not k_max once
the range is wider than 12: at (k_min, k_max) = (3, 100) it returns 15,
refuting "returns exactly k_max when S is minimal and D = 1". -/
theorem claim_C7_counterexample :
    adaptive_k (-1) 1 3 100 4 4 = 15 ∧ adaptive_k (-1) 1 3 100 4 4 ≠ 100 := by
  have h : adaptive_k (-1) 1 3 100 4 4 = 15 := by norm_num [adaptive_k]
  exact ⟨h, by rw [h]; decide⟩

/-- C7 (amended): both sampling rules always return k in [k_min, k_max]
when k_min ≤ k_max, and return exactly k_min at (S' = 1, D = 0); the
interpolation rule returns exactly k_max at (S' = 0, D = 1), while the
ceil rule clamps toward k_max and attains it exactly whenever
k_max - k_min ≤ 2*lam + mu (at the defaults, a span of at most 12); in
particular both rules give 3 at (S' = 1, D = 0, 3, 10) and 10 at
(S' = 0, D = 1, 3, 10). -/
theorem claim_C7_adaptive_k_amended :
    (∀ S D lam mu : ℚ, ∀ k_min k_max : ℤ, k_min ≤ k_max →
       k_min ≤ adaptive_k S D k_min k_max lam mu ∧
         adaptive_k S D k_min k_max lam mu ≤ k_max) ∧
    (∀ S D : ℚ, ∀ k_min k_max : ℤ, k_min ≤ k_max →
       k_min ≤ adaptive_kB S D k_min k_max ∧ adaptive_kB S D k_min k_max ≤ k_max) ∧
    (∀ lam mu : ℚ, ∀ k_min k_max : ℤ, k_min ≤ k_max →
       adaptive_k 1 0 k_min k_max lam mu = k_min) ∧
    (∀ k_min k_max : ℤ, adaptive_kB 1 0 k_min k_max = k_min) ∧
    (∀ k_min k_max : ℤ, k_min ≤ k_max → adaptive_kB 0 1 k_min k_max = k_max) ∧
    (∀ k_min k_max : ℤ, k_min ≤ k_max → k_max ≤ k_min + 12 →
       adaptive_k (-1) 1 k_min k_max 4 4 = k_max) ∧
    adaptive_k 1 0 3 10 4 4 = 3 ∧ adaptive_k (-1) 1 3 10 4 4 = 10 ∧
    adaptive_kB 1 0 3 10 = 3 ∧ adaptive_kB 0 1 3 10 = 10 := by
  refine ⟨fun S D lam mu k_min k_max h => adaptive_k_mem h,
          fun S D k_min k_max h => adaptive_kB_mem h,
          fun lam mu k_min k_max h => adaptive_k_top h,
          adaptive_kB_top,
          fun k_min k_max h => adaptive_kB_bot h,
          fun k_min k_max h h2 => adaptive_k_bot_clamped h h2,
          by norm_num [adaptive_k], by norm_num [adaptive_k],
          by norm_num [adaptive_kB, pyInt], by norm_num [adaptive_kB, pyInt]⟩

/-- Witness for C7: the amended theorem instantiated at concrete bounds. -/
theorem claim_C7_witness :
    ((3:ℤ) ≤ adaptive_k (1/2) (1/2) 3 10 4 4 ∧ adaptive_k (1/2) (1/2) 3 10 4 4 ≤ 10) ∧
    ((3:ℤ) ≤ adaptive_kB (1/2) (1/2) 3 10 ∧ adaptive_kB (1/2) (1/2) 3 10 ≤ 10) ∧
    adaptive_k 1 0 5 7 4 4 = 5 ∧ adaptive_kB 0 1 5 7 = 7 ∧
    adaptive_k (-1) 1 5 7 4 4 = 7 :=
  ⟨claim_C7_adaptive_k_amended.1 (1/2) (1/2) 4 4 3 10 (by norm_num),
   claim_C7_adaptive_k_amended.2.1 (1/2) (1/2) 3 10 (by norm_num),
   claim_C7_adaptive_k_amended.2.2.1 4 4 5 7 (by norm_num),
   claim_C7_adaptive_k_amended.2.2.2.2.1 5 7 (by norm_num),
   claim_C7_adaptive_k_amended.2.2.2.2.2.1 5 7 (by norm_num) (by norm_num)⟩

/-- C3 counterexample: a nonempty score list whose weights sum to zero
makes `aggregate_verification` divide by zero (a raised
ZeroDivisionError, modelled as `none`), not return 1.0. -/
theorem claim_C3_counterexample :
    aggregate_verification [1/2] [0] = none ∧
    aggregate_verification [1/2] [0] ≠ some 1 := by
  have h : aggregate_verification [1/2] [0] = none := by
    norm_num [aggregate_verification]
  exact ⟨h, by rw [h]; simp⟩

/-- C3 (amended): for every nonempty list of verifier scores whose
weights sum to zero, `aggregate_verification` fails with a
division-by-zero error (modelled as `none`) instead of returning 1.0. -/
theorem claim_C3_zero_weight_fails :
    ∀ (scores weights : List ℚ), scores ≠ [] → weights.sum = 0 →
      aggregate_verification scores weights = none := by
  intro scores weights hne hsum
  cases scores with
  | nil => exact absurd rfl hne
  | cons s ss => simp [aggregate_verification, hsum]

/-- Witness for C3's amended theorem at scores [1/2], weights [0]. -/
theorem claim_C3_witness :
    ([(1:ℚ)/2] ≠ ([] : List ℚ)) ∧ ([(0:ℚ)]).sum = 0 ∧
    aggregate_verification [1/2] [0] = none :=
  ⟨by simp, by simp,
   claim_C3_zero_weight_fails [1/2] [0] (by simp) (by simp)⟩

theorem foldl_min_mem : ∀ (l : List ℚ) (a : ℚ), l.foldl min a ∈ a :: l := by
  intro l
  induction l with
  | nil => intro a; simp
  | cons b l ih =>
      intro a
      rw [List.foldl_cons]
      rcases List.mem_cons.mp (ih (min a b)) with h1 | h1
      · rcases min_choice a b with hm | hm <;> rw [h1, hm] <;> simp
      · simp [h1]

theorem zip_mul_sum_bounds :
    ∀ (scores weights : List ℚ), (∀ s ∈ scores, 0 ≤ s ∧ s ≤ 1) →
      (∀ w ∈ weights, 0 ≤ w) →
      0 ≤ ((scores.zip weights).map (fun p => p.1 * p.2)).sum ∧
      ((scores.zip weights).map (fun p => p.1 * p.2)).sum ≤ weights.sum := by
  intro scores
  induction scores with
  | nil =>
      intro weights _ hw
      simpa using List.sum_nonneg hw
  | cons s ss ih =>
      intro weights hs hw
      cases weights with
      | nil => simp
      | cons w ws =>
          have hs0 : 0 ≤ s ∧ s ≤ 1 := hs s (by simp)
          have hw0 : 0 ≤ w := hw w (by simp)
          have ihr := ih ws (fun x hx => hs x (by simp [hx])) (fun x hx => hw x (by simp [hx]))
          simp only [List.zip_cons_cons, List.map_cons, List.sum_cons]
          constructor
          · have : 0 ≤ s * w := mul_nonneg hs0.1 hw0
            linarith [ihr.1]
          · have h1 : s * w ≤ w := by nlinarith [hs0.1, hs0.2, hw0]
            linarith [ihr.2]

/-- C6 counterexample: the claim omits nonnegativity of the weights, and
without it the aggregate leaves [0, 1]: scores [0, 1] (both in [0, 1])
with weights [2, -1] (sum 1, positive) aggregate to -1/2. -/
theorem claim_C6_counterexample :
    aggregate_verification [0, 1] [2, -1] = some (-(1/2)) ∧ ¬(0 ≤ -((1:ℚ)/2)) := by
  constructor
  · norm_num [aggregate_verification]
  · norm_num

/-- C6 (amended): the aggregator returns 1.0 on an empty score list; for
every nonempty list of scores in [0, 1] with nonnegative weights summing
to a positive value it returns 0.5 times the weighted mean plus 0.5
times the unweighted minimum of the scores, a value in [0, 1]; and
aggregate([0.9, 0.3], [1, 1]) = 0.45. -/
theorem claim_C6_aggregate_amended :
    (∀ weights : List ℚ, aggregate_verification [] weights = some 1) ∧
    (∀ (s : ℚ) (ss weights : List ℚ),
       (∀ x ∈ s :: ss, 0 ≤ x ∧ x ≤ 1) → (∀ w ∈ weights, 0 ≤ w) → 0 < weights.sum →
       aggregate_verification (s :: ss) weights = some (aggExpr s ss weights) ∧
       0 ≤ aggExpr s ss weights ∧ aggExpr s ss weights ≤ 1) ∧
    aggregate_verification [9/10, 3/10] [1, 1] = some (9/20) := by
  refine ⟨fun weights => rfl, ?_, by norm_num [aggregate_verification]⟩
  intro s ss weights hs hw hpos
  have hT := zip_mul_sum_bounds (s :: ss) weights hs hw
  have hq1 : 0 ≤ (((s :: ss).zip weights).map (fun p => p.1 * p.2)).sum / weights.sum :=
    div_nonneg hT.1 hpos.le
  have hq2 : (((s :: ss).zip weights).map (fun p => p.1 * p.2)).sum / weights.sum ≤ 1 :=
    (div_le_one hpos).mpr hT.2
  have hmb := hs _ (foldl_min_mem ss s)
  have heq : aggExpr s ss weights =
      (1/2) * ((((s :: ss).zip weights).map (fun p => p.1 * p.2)).sum / weights.sum)
        + (1/2) * ss.foldl min s := by
    unfold aggExpr
    ring
  refine ⟨?_, ?_, ?_⟩
  · simp [aggregate_verification, hpos.ne', aggExpr]
  · rw [heq]; linarith [hmb.1]
  · rw [heq]; linarith [hmb.2]

/-- Witness for C6's amended theorem at scores [0.9, 0.3], weights [1, 1]. -/
theorem claim_C6_witness :
    aggregate_verification [9/10, 3/10] [1, 1] = some (aggExpr (9/10) [3/10] [1, 1]) ∧
    0 ≤ aggExpr (9/10) [3/10] [1, 1] ∧ aggExpr (9/10) [3/10] [1, 1] ≤ 1 :=
  claim_C6_aggregate_amended.2.1 (9/10) [3/10] [1, 1] (by norm_num) (by norm_num) (by norm_num)

/-- C4 counterexample: with a single rephrasing the pair count is zero,
the mean similarity defaults to 0.0, and the perturbation-based
difficulty is clip(1 - 0.0) = 1.0, not the claimed 0. -/
theorem claim_C4_counterexample :
    difficultyFromPrompts (fun _ s => s) (fun _ => [1]) ["q"] = 1 ∧ (1:ℚ) ≠ 0 := by
  constructor
  · simp [difficultyFromPrompts, difficultyFromOutputs, numPairs, clamp01, pairSum]
  · norm_num

/-- C4 (amended): for the perturbation-based difficulty strategy, when
only one rephrasing exists (no pairwise similarity can be computed), the
mean similarity falls back to 0.0 and compute returns D = 1, for every
generator and embedding. -/
theorem claim_C4_single_rephrasing_amended :
    ∀ (gen : ℕ → String → String) (emb : String → List ℚ) (p : String),
      difficultyFromPrompts gen emb [p] = 1 := by
  intro gen emb p
  simp [difficultyFromPrompts, difficultyFromOutputs, numPairs, clamp01, pairSum]

theorem replicate_dedup_eq {c : String} :
    ∀ n : ℕ, 1 ≤ n → (List.replicate n c).dedup = [c] := by
  intro n
  induction n with
  | zero => omega
  | succ m ih =>
      intro _
      rcases Nat.eq_zero_or_pos m with hm | hm
      · subst hm; simp
      · rw [List.replicate_succ,
            List.dedup_cons_of_mem (by simp [List.mem_replicate]; omega)]
        exact ih hm

/-- C10: the repetition-based difficulty with n >= 1 samples is always at
least 1/n (at least one distinct string is drawn, so D = 0 is
unreachable), and a fully deterministic generator yields exactly
D = 1/n. -/
theorem claim_C10_difficultyRep_lower_bound :
    (∀ (llm : ℕ → String) (n : ℕ), 1 ≤ n → 1 / (n:ℚ) ≤ difficultyRep llm n) ∧
    (∀ (c : String) (n : ℕ), 1 ≤ n → difficultyRep (fun _ => c) n = 1 / (n:ℚ)) ∧
    (∀ (llm : ℕ → String) (n : ℕ), 1 ≤ n → difficultyRep llm n ≠ 0) := by
  have hn1 : ∀ n : ℕ, 1 ≤ n → (1:ℚ) / (n:ℚ) ≤ 1 := by
    intro n hn
    rw [div_le_one (by exact_mod_cast hn)]
    exact_mod_cast hn
  have key : ∀ (llm : ℕ → String) (n : ℕ), 1 ≤ n → 1 / (n:ℚ) ≤ difficultyRep llm n := by
    intro llm n hn
    have hpos : (0:ℚ) < (n:ℚ) := by exact_mod_cast hn
    have hne : ((List.range n).map llm) ≠ [] := by
      simp [List.map_eq_nil_iff, List.range_eq_nil]
      omega
    have hlen : 1 ≤ ((List.range n).map llm).dedup.length := by
      rcases List.exists_mem_of_ne_nil _ hne with ⟨x, hx⟩
      have hxd : x ∈ ((List.range n).map llm).dedup := List.mem_dedup.mpr hx
      exact List.length_pos.mpr (List.ne_nil_of_mem hxd)
    unfold difficultyRep
    apply le_min (hn1 n hn)
    rw [div_le_div_iff_of_pos_right hpos]
    exact_mod_cast hlen
  refine ⟨key, ?_, ?_⟩
  · intro c n hn
    have hmap : (List.range n).map (fun _ => c) = List.replicate n c := by
      simp [List.map_const]
    unfold difficultyRep
    rw [hmap]
    simp only [replicate_dedup_eq n hn, List.length_singleton, Nat.cast_one]
    simpa using min_eq_right (hn1 n hn)
  · intro llm n hn
    have h := key llm n hn
    have hpos : (0:ℚ) < 1 / (n:ℚ) := by positivity
    exact ne_of_gt (lt_of_lt_of_le hpos h)

/-- Witness for C10 at a varying generator with n = 2 and a constant
generator with n = 3. -/
theorem claim_C10_witness :
    (1 / (2:ℚ) ≤ difficultyRep (fun i => toString i) 2) ∧
    difficultyRep (fun _ => "x") 3 = 1 / (3:ℚ) ∧
    difficultyRep (fun i => toString i) 2 ≠ 0 :=
  ⟨claim_C10_difficultyRep_lower_bound.1 (fun i => toString i) 2 (by norm_num),
   claim_C10_difficultyRep_lower_bound.2.1 "x" 3 (by norm_num),
   claim_C10_difficultyRep_lower_bound.2.2 (fun i => toString i) 2 (by norm_num)⟩

/-- C8 counterexample: on the same sub-2-sample input the two source
variants return different hardcoded neutral constants (0.0 in
src/eva/stability.py, 1.0 in src/src/eva/stability.py); neither value is
read from any configuration, so "the configured stability
neutral-default constant" does not exist in the code. -/
theorem claim_C8_counterexample :
    stabilityCompute (fun _ => [1]) [] = 0 ∧
    stabilityComputeB (fun _ => [1]) [] = 1 ∧ (0:ℚ) ≠ 1 := by
  refine ⟨rfl, ?_, by norm_num⟩
  simp [stabilityComputeB]

/-- C8 (amended): with fewer than 2 outputs each stability estimator
returns its own hardcoded neutral constant — 0 for the primary variant,
1 for the secondary — independent of the outputs' content and without
consulting the similarity provider (the result is the same for every
embedding function). -/
theorem claim_C8_stability_neutral_amended :
    (∀ (emb : String → List ℚ) (outputs : List String), outputs.length < 2 →
       stabilityCompute emb outputs = 0) ∧
    (∀ (emb : String → List ℝ) (outputs : List String), outputs.length < 2 →
       stabilityComputeB emb outputs = 1) := by
  constructor
  · intro emb outputs h
    simp [stabilityCompute, h]
  · intro emb outputs h
    simp [stabilityComputeB, h]

/-- Witness for C8 at a one-element output list. -/
theorem claim_C8_witness :
    (["solo"] : List String).length < 2 ∧
    stabilityCompute (fun s => [(s.length : ℚ)]) ["solo"] = 0 ∧
    stabilityComputeB (fun s => [(s.length : ℝ)]) ["solo"] = 1 :=
  ⟨by decide,
   claim_C8_stability_neutral_amended.1 (fun s => [(s.length : ℚ)]) ["solo"] (by decide),
   claim_C8_stability_neutral_amended.2 (fun s => [(s.length : ℝ)]) ["solo"] (by decide)⟩

theorem pairSum_perm {α β : Type} [AddCommMonoid β] (f : α → α → β)
    (hsym : ∀ a b, f a b = f b a) {l₁ l₂ : List α} (h : l₁.Perm l₂) :
    pairSum f l₁ = pairSum f l₂ := by
  induction h with
  | nil => rfl
  | cons x h ih =>
      simp only [pairSum]
      rw [ih, (h.map (f x)).sum_eq]
  | swap x y l =>
      simp only [pairSum, List.map_cons, List.sum_cons]
      rw [hsym y x]
      abel
  | trans h1 h2 ih1 ih2 => exact ih1.trans ih2

theorem numPairs_perm {α : Type} {l₁ l₂ : List α} (h : l₁.Perm l₂) :
    numPairs l₁ = numPairs l₂ := by
  unfold numPairs
  rw [h.length_eq]

theorem dotprod_comm (xs ys : List ℚ) : dotprod xs ys = dotprod ys xs := by
  unfold dotprod
  rw [List.zipWith_comm_of_comm _ mul_comm]

theorem dotprodR_comm (xs ys : List ℝ) : dotprodR xs ys = dotprodR ys xs := by
  unfold dotprodR
  rw [List.zipWith_comm_of_comm _ mul_comm]

theorem cosSim_comm (emb : String → List ℝ) (a b : String) :
    cosSim emb a b = cosSim emb b a := by
  unfold cosSim
  rw [dotprodR_comm (emb a) (emb b), mul_comm]

/-- C9: both stability estimators are invariant under any permutation of
the outputs, for every (deterministic) embedding function: the pairwise
mean — and, for the secondary variant, the entropy penalty — only depend
on the multiset of unordered pairs. -/
theorem claim_C9_stability_permutation_invariant :
    (∀ (emb : String → List ℚ) (l₁ l₂ : List String), l₁.Perm l₂ →
       stabilityCompute emb l₁ = stabilityCompute emb l₂) ∧
    (∀ (emb : String → List ℝ) (l₁ l₂ : List String), l₁.Perm l₂ →
       stabilityComputeB emb l₁ = stabilityComputeB emb l₂) := by
  constructor
  · intro emb l₁ l₂ h
    unfold stabilityCompute
    rw [pairSum_perm (fun a b => dotprod (emb a) (emb b))
          (fun a b => dotprod_comm (emb a) (emb b)) h,
        numPairs_perm h, h.length_eq]
  · intro emb l₁ l₂ h
    unfold stabilityComputeB
    rw [pairSum_perm (fun a b => cosSim emb a b) (cosSim_comm emb) h,
        pairSum_perm (fun a b => entTerm (cosSim emb a b))
          (fun a b => by simp only []; rw [cosSim_comm emb a b]) h,
        numPairs_perm h, h.length_eq]

/-- Witness for C9: a concrete three-element output list against a
cyclic reordering of it, for both estimators. -/
theorem claim_C9_witness :
    stabilityCompute (fun s => [(s.length : ℚ)]) ["a", "bb", "c"] =
      stabilityCompute (fun s => [(s.length : ℚ)]) ["c", "a", "bb"] ∧
    stabilityComputeB (fun s => [(s.length : ℝ)]) ["a", "bb", "c"] =
      stabilityComputeB (fun s => [(s.length : ℝ)]) ["c", "a", "bb"] :=
  ⟨claim_C9_stability_permutation_invariant.1 (fun s => [(s.length : ℚ)])
     ["a", "bb", "c"] ["c", "a", "bb"] (by decide),
   claim_C9_stability_permutation_invariant.2 (fun s => [(s.length : ℝ)])
     ["a", "bb", "c"] ["c", "a", "bb"] (by decide)⟩

/-- C5 counterexample: constructing the orchestrator with k_min = 10 >
k_max = 3 does not fail: `EVA.__init__` contains no validation and no
ConfigurationError exists anywhere in the code, so the invalid bounds
are stored verbatim. -/
theorem claim_C5_counterexample :
    (EVA.init [] (3/4) 1 1 1 10 3).k_min = 10 ∧
    (EVA.init [] (3/4) 1 1 1 10 3).k_max = 3 ∧ ¬((10:ℤ) ≤ 3) :=
  ⟨rfl, rfl, by decide⟩

/-- C5 (amended): construction never fails: `EVA.__init__` performs no
validation at INIT and stores every configuration verbatim — including
k_min > k_max, out-of-range thresholds, and negative weights — only
substituting the no-op verifier for an empty verifier list. -/
theorem claim_C5_init_no_validation :
    ∀ (verifiers : List (String → Bool)) (threshold alpha beta gamma : ℚ)
      (k_min k_max : ℤ),
      (EVA.init verifiers threshold alpha beta gamma k_min k_max).threshold = threshold ∧
      (EVA.init verifiers threshold alpha beta gamma k_min k_max).alpha = alpha ∧
      (EVA.init verifiers threshold alpha beta gamma k_min k_max).beta = beta ∧
      (EVA.init verifiers threshold alpha beta gamma k_min k_max).gamma = gamma ∧
      (EVA.init verifiers threshold alpha beta gamma k_min k_max).k_min = k_min ∧
      (EVA.init verifiers threshold alpha beta gamma k_min k_max).k_max = k_max ∧
      (verifiers = [] →
        (EVA.init verifiers threshold alpha beta gamma k_min k_max).verifiers.length = 1) := by
  intro verifiers threshold alpha beta gamma k_min k_max
  refine ⟨rfl, rfl, rfl, rfl, rfl, rfl, ?_⟩
  intro hv
  subst hv
  simp [EVA.init]

/-- Witness for C5 at an invalid configuration (k_min = 5 > k_max = 2)
with an empty verifier list. -/
theorem claim_C5_witness :
    (EVA.init [] (3/4) 1 1 1 5 2).k_min = 5 ∧
    (EVA.init [] (3/4) 1 1 1 5 2).k_max = 2 ∧
    (EVA.init [] (3/4) 1 1 1 5 2).verifiers.length = 1 :=
  ⟨(claim_C5_init_no_validation [] (3/4) 1 1 1 5 2).2.2.2.2.1,
   (claim_C5_init_no_validation [] (3/4) 1 1 1 5 2).2.2.2.2.2.1,
   (claim_C5_init_no_validation [] (3/4) 1 1 1 5 2).2.2.2.2.2.2 rfl⟩

/-- C2: for every prompt (and valid bounds 1 <= k_min <= k_max), EVA.run
returns one EvaluationResult record — the `EVAResult` structure carries
the fields accepted, reliability, stability, difficulty, verification,
samples_used, outputs — in which the length of `outputs` equals
`samples_used` and `samples_used` lies within [k_min, k_max]. -/
theorem claim_C2_run_result_invariants :
    ∀ (cfg : EVAConfig) (llm : ℕ → String → String) (emb : String → List ℚ)
      (prompt : String), 1 ≤ cfg.k_min → cfg.k_min ≤ cfg.k_max →
      ((EVA.run cfg llm emb prompt).outputs.length : ℤ)
          = (EVA.run cfg llm emb prompt).samples_used ∧
      cfg.k_min ≤ (EVA.run cfg llm emb prompt).samples_used ∧
      (EVA.run cfg llm emb prompt).samples_used ≤ cfg.k_max := by
  intro cfg llm emb prompt hk1 hmax
  have hs : (EVA.run cfg llm emb prompt).samples_used = runK cfg llm emb prompt := rfl
  have ho : (EVA.run cfg llm emb prompt).outputs = runOutputs cfg llm emb prompt := rfl
  have hb : cfg.k_min ≤ runK cfg llm emb prompt ∧ runK cfg llm emb prompt ≤ cfg.k_max := by
    unfold runK
    exact adaptive_k_mem hmax
  have hl : ((runOutputs cfg llm emb prompt).length : ℤ) = runK cfg llm emb prompt := by
    simp only [runOutputs]
    split_ifs with hgt
    · simp only [List.length_append, List.length_map, List.length_range]
      omega
    · simp only [List.length_map, List.length_range]
      omega
  rw [hs, ho]
  exact ⟨hl, hb.1, hb.2⟩

/-- Witness for C2 at the default bounds (3, 10) with a constant
generator, a singleton embedding, and the no-op verifier. -/
theorem claim_C2_witness :
    ((EVA.run (EVA.init [] (3/4) 1 1 1 3 10) (fun _ _ => "out") (fun _ => [1])
        "p").outputs.length : ℤ)
      = (EVA.run (EVA.init [] (3/4) 1 1 1 3 10) (fun _ _ => "out") (fun _ => [1])
        "p").samples_used ∧
    (EVA.init [] (3/4) 1 1 1 3 10).k_min
      ≤ (EVA.run (EVA.init [] (3/4) 1 1 1 3 10) (fun _ _ => "out") (fun _ => [1])
        "p").samples_used ∧
    (EVA.run (EVA.init [] (3/4) 1 1 1 3 10) (fun _ _ => "out") (fun _ => [1])
        "p").samples_used ≤ (EVA.init [] (3/4) 1 1 1 3 10).k_max :=
  claim_C2_run_result_invariants (EVA.init [] (3/4) 1 1 1 3 10)
    (fun _ _ => "out") (fun _ => [1]) "p" (by decide) (by decide)
